import Mathlib

/-
Shallow embedding of the SwiftRemit settlement contract (`src/lib.rs`,
`src/types.rs`).  Machine integers are modelled as `Int` / `Nat` with the
Rust checked-arithmetic operations made explicit.  The modules
`storage.rs`, `errors.rs`, `events.rs` and `validation.rs` are not among
the sources; the definitions that stand in for them are marked
"Modelled from the spec" and follow the spec's description and the way
`lib.rs` uses them.

Stateful contract functions are embedded as `State → State × Except
ContractError α`: the returned state is the raw post-state of the body,
mutations up to an error point included.  The Soroban host's transactional
semantics (spec section 5 and 7: an error aborts the invocation and rolls
back every write) is modelled separately by `invoke`.
-/

set_option maxHeartbeats 1000000
set_option synthInstance.maxHeartbeats 1000000
set_option maxRecDepth 100000

deriving instance DecidableEq for Except

namespace SwiftRemit

/-- Lower bound of Rust `i128`. -/
def I128_MIN : Int := -(2 ^ 127)

/-- Upper bound of Rust `i128`. -/
def I128_MAX : Int := 2 ^ 127 - 1

/-- Upper bound of Rust `u64`. -/
def U64_MAX : Nat := 2 ^ 64 - 1

/-- Test that an integer is representable as an `i128`. -/
def fitsI128 (x : Int) : Bool := decide (I128_MIN ≤ x) && decide (x ≤ I128_MAX)

/-- Rust `i128::checked_add`. -/
def checked_add (a b : Int) : Option Int :=
  if fitsI128 (a + b) then some (a + b) else none

/-- Rust `i128::checked_sub`. -/
def checked_sub (a b : Int) : Option Int :=
  if fitsI128 (a - b) then some (a - b) else none

/-- Rust `i128::checked_mul`. -/
def checked_mul (a b : Int) : Option Int :=
  if fitsI128 (a * b) then some (a * b) else none

/-- Rust `i128::checked_div`: `none` exactly when the divisor is zero or the
division overflows (`i128::MIN / -1`); otherwise truncated (toward zero)
division, which is what Rust's `/` computes. -/
def checked_div (a b : Int) : Option Int :=
  if b = 0 ∨ (a = I128_MIN ∧ b = -1) then none else some (Int.tdiv a b)

/-- Rust `u64::checked_add`. -/
def checked_add_u64 (a b : Nat) : Option Nat :=
  if a + b ≤ U64_MAX then some (a + b) else none

/-- Principal identifier (Soroban `Address`).  The `wellFormed` flag carries
the property tested by `validate_address` of the repository's
`validation.rs`, which is not among the sources; modelled from the spec:
"Destination address sanity check → address-validation failure if
malformed". -/
structure Address where
  ident : Nat
  wellFormed : Bool
deriving DecidableEq, Repr

/-- Error taxonomy of the contract.  The module `errors.rs` is not among the
sources; the variants are those used by `lib.rs` together with the spec's
closed taxonomy (section 7).  `NotInitialized` models the failure of the
storage getters on missing admin state and `InvalidAddress` the failure of
`validate_address`; `Unauthorized` models the abort of the host's
`require_auth`. -/
inductive ContractError where
  | AlreadyInitialized
  | InvalidFeeBps
  | InvalidAmount
  | AgentNotRegistered
  | RemittanceNotFound
  | InvalidStatus
  | Overflow
  | NoFeesToWithdraw
  | SettlementExpired
  | DuplicateSettlement
  | ContractPaused
  | EmptyBatchSettlement
  | BatchTooLarge
  | BatchValidationFailed
  | DailyLimitExceeded
  | NotInitialized
  | InvalidAddress
  | Unauthorized
deriving DecidableEq, Repr

/-- Status of a remittance, from `types.rs`. -/
inductive RemittanceStatus where
  | Pending
  | Completed
  | Cancelled
deriving DecidableEq, Repr

/-- Remittance record, from `types.rs`. -/
structure Remittance where
  id : Nat
  sender : Address
  agent : Address
  amount : Int
  fee : Int
  status : RemittanceStatus
  expiry : Option Nat
deriving DecidableEq, Repr

/-- Batch settlement entry.  The declaring module is not among the sources;
modelled from its uses in `lib.rs` (a single `remittance_id: u64` field). -/
structure BatchSettlementEntry where
  remittance_id : Nat
deriving DecidableEq, Repr

/-- Batch settlement result, from its construction in `lib.rs`. -/
structure BatchSettlementResult where
  settled_ids : List Nat
deriving DecidableEq, Repr

/-- Maximum batch size.  The declaring module is not among the sources.
Modelled from the spec: "fixed upper bound — 100 in the reference
behavior" (the 50-entry variant is declared superseded there). -/
def MAX_BATCH_SIZE : Nat := 100

/-- Domain events.  The module `events.rs` is not among the sources; each
variant is modelled from the corresponding `emit_*` call site in `lib.rs`
(argument list order preserved) and the spec's event descriptions. -/
inductive Event where
  | AgentRegistered (agent admin : Address)
  | AgentRemoved (agent admin : Address)
  | FeeUpdated (admin : Address) (old_fee new_fee : Nat)
  | RemittanceCreated (id : Nat) (sender agent token : Address) (amount fee : Int)
  | RemittanceCompleted (id : Nat) (sender agent token : Address) (payout : Int)
  | SettlementCompleted (sender agent token : Address) (payout : Int)
  | RemittanceCancelled (id : Nat) (sender agent token : Address) (amount : Int)
  | FeesWithdrawn (admin dest token : Address) (amount : Int)
  | Paused (admin : Address)
  | Unpaused (admin : Address)
  | BatchSettlementStarted (size : Nat)
  | BatchSettlementCompleted (count reason : Nat)
  | BatchSettlementFailed (reason : Nat)
deriving DecidableEq, Repr

/-- An executed value transfer (a `token_client.transfer` call). -/
structure Transfer where
  sender : Address
  recipient : Address
  amount : Int
deriving DecidableEq, Repr

/-- Lookup in an association list. -/
def getAssoc {κ δ : Type} [DecidableEq κ] : List (κ × δ) → κ → Option δ
  | [], _ => none
  | (k, v) :: t, k0 => if k = k0 then some v else getAssoc t k0

/-- Insert or replace in an association list. -/
def setAssoc {κ δ : Type} [DecidableEq κ] : List (κ × δ) → κ → δ → List (κ × δ)
  | [], k0, v0 => [(k0, v0)]
  | (k, v) :: t, k0, v0 =>
    if k = k0 then (k0, v0) :: t else (k, v) :: setAssoc t k0 v0

/-- Contract state: the contract's own address, the persistent ledger store
(admin state, remittances keyed by id, settlement marks, agent registry),
and the observable side effects of the current history (events, executed
transfers), newest first.  The storage layout is modelled from the
spec (section 6, keys `(EntityKind, discriminator)`) since `storage.rs`
is not among the sources. -/
structure State where
  contractAddr : Address
  admin : Option Address
  usdc_token : Option Address
  platform_fee_bps : Option Nat
  remittance_counter : Option Nat
  accumulated_fees : Option Int
  paused : Bool
  agents : List (Address × Bool)
  remittances : List (Nat × Remittance)
  settlement_hashes : List Nat
  events : List Event
  transfers : List Transfer
deriving DecidableEq, Repr

/-- Storage probe for the admin slot.  Modelled from the spec: `storage.rs`
is not among the sources. -/
def has_admin (s : State) : Bool := s.admin.isSome

/-- Storage getter for the admin.  Modelled from the spec. -/
def get_admin (s : State) : Except ContractError Address :=
  match s.admin with
  | some a => .ok a
  | none => .error .NotInitialized

/-- Storage getter for the value asset.  Modelled from the spec. -/
def get_usdc_token (s : State) : Except ContractError Address :=
  match s.usdc_token with
  | some a => .ok a
  | none => .error .NotInitialized

/-- Storage getter for the platform fee rate.  Modelled from the spec. -/
def get_platform_fee_bps (s : State) : Except ContractError Nat :=
  match s.platform_fee_bps with
  | some n => .ok n
  | none => .error .NotInitialized

/-- Storage getter for the monotonic remittance counter.  Modelled from the
spec. -/
def get_remittance_counter (s : State) : Except ContractError Nat :=
  match s.remittance_counter with
  | some n => .ok n
  | none => .error .NotInitialized

/-- Storage getter for the accumulated fee balance.  Modelled from the
spec. -/
def get_accumulated_fees (s : State) : Except ContractError Int :=
  match s.accumulated_fees with
  | some n => .ok n
  | none => .error .NotInitialized

/-- Storage getter for a remittance; fails with `RemittanceNotFound` when the
id is absent (spec section 4.2, and the repository test
`test_get_settlement_invalid_id`).  Modelled from the spec. -/
def get_remittance (s : State) (remittance_id : Nat) : Except ContractError Remittance :=
  match getAssoc s.remittances remittance_id with
  | some r => .ok r
  | none => .error .RemittanceNotFound

/-- Storage setter for a remittance.  Modelled from the spec. -/
def set_remittance (s : State) (remittance_id : Nat) (r : Remittance) : State :=
  { s with remittances := setAssoc s.remittances remittance_id r }

/-- Agent registry probe.  Modelled from the spec. -/
def is_agent_registered (s : State) (agent : Address) : Bool :=
  (getAssoc s.agents agent).getD false

/-- Agent registry setter.  Modelled from the spec. -/
def set_agent_registered (s : State) (agent : Address) (b : Bool) : State :=
  { s with agents := setAssoc s.agents agent b }

/-- Settlement-mark probe.  Modelled from the spec: a per-id idempotence
flag, never cleared. -/
def has_settlement_hash (s : State) (remittance_id : Nat) : Bool :=
  s.settlement_hashes.contains remittance_id

/-- Settlement-mark setter.  Modelled from the spec. -/
def set_settlement_hash (s : State) (remittance_id : Nat) : State :=
  { s with settlement_hashes := remittance_id :: s.settlement_hashes }

/-- Pause flag probe.  Modelled from the spec. -/
def is_paused (s : State) : Bool := s.paused

/-- Pause flag setter.  Modelled from the spec. -/
def set_paused (s : State) (b : Bool) : State := { s with paused := b }

/-- Record an emitted event (newest first). -/
def emit (e : Event) (s : State) : State := { s with events := e :: s.events }

/-- Record an executed value transfer (newest first). -/
def addTransfer (t : Transfer) (s : State) : State :=
  { s with transfers := t :: s.transfers }

/-- Host authorization: `require_auth` of the principal `a` succeeds exactly
when `a` is among the principals that authorized the current invocation;
otherwise the invocation aborts.  Modelled from the spec (section 2,
Authorization collaborator). -/
def require_auth (auths : List Address) (a : Address) : Except ContractError Unit :=
  if a ∈ auths then .ok () else .error .Unauthorized

/-- Address sanity check of `validation.rs`, which is not among the sources.
Modelled from the spec: fails on a malformed address. -/
def validate_address (a : Address) : Except ContractError Unit :=
  if a.wellFormed then .ok () else .error .InvalidAddress

/-- Expiry test used by `confirm_payout` and `batch_settle`: a remittance is
past expiry when an expiry is present and the current ledger time is
strictly above it (`lib.rs` 159-164, 383-389). -/
def expired (expiry : Option Nat) (now : Nat) : Bool :=
  match expiry with
  | some expiry_time => decide (expiry_time < now)
  | none => false

/-- Soroban invocation semantics (spec sections 5 and 7): a call that returns
an error aborts the whole invocation, and every storage write, transfer
and event it performed is rolled back; a successful call commits its
final state. -/
def invoke {α : Type} (f : State → State × Except ContractError α) (s : State) :
    State × Except ContractError α :=
  match f s with
  | (_, .error e) => (s, .error e)
  | (s2, .ok a) => (s2, .ok a)

/-- Contract constructor (`initialize` in `lib.rs` 23-46; `initialize` is a
reserved word in Lean, hence the name).  Performs no authorization check;
fails on a second call and on an out-of-range fee rate. -/
def init_contract (s : State) (_auths : List Address) (admin usdc_token : Address)
    (fee_bps : Nat) : State × Except ContractError Unit :=
  if has_admin s then (s, .error .AlreadyInitialized)
  else if fee_bps > 10000 then (s, .error .InvalidFeeBps)
  else
    let s1 : State :=
      { s with admin := some admin, usdc_token := some usdc_token,
               platform_fee_bps := some fee_bps, remittance_counter := some 0,
               accumulated_fees := some 0 }
    (s1, .ok ())

/-- Agent registration, from `lib.rs` 48-58. -/
def register_agent (s : State) (auths : List Address) (agent : Address) :
    State × Except ContractError Unit :=
  match get_admin s with
  | .error e => (s, .error e)
  | .ok admin =>
    match require_auth auths admin with
    | .error e => (s, .error e)
    | .ok _ =>
      let s1 := set_agent_registered s agent true
      (emit (.AgentRegistered agent admin) s1, .ok ())

/-- Agent removal, from `lib.rs` 60-70. -/
def remove_agent (s : State) (auths : List Address) (agent : Address) :
    State × Except ContractError Unit :=
  match get_admin s with
  | .error e => (s, .error e)
  | .ok admin =>
    match require_auth auths admin with
    | .error e => (s, .error e)
    | .ok _ =>
      let s1 := set_agent_registered s agent false
      (emit (.AgentRemoved agent admin) s1, .ok ())

/-- Fee-rate update, from `lib.rs` 72-87.  Mirrors the source order exactly:
the new rate is stored first and the "old" rate for the event is read back
afterwards. -/
def update_fee (s : State) (auths : List Address) (fee_bps : Nat) :
    State × Except ContractError Unit :=
  match get_admin s with
  | .error e => (s, .error e)
  | .ok admin =>
    match require_auth auths admin with
    | .error e => (s, .error e)
    | .ok _ =>
      if fee_bps > 10000 then (s, .error .InvalidFeeBps)
      else
        let s1 : State := { s with platform_fee_bps := some fee_bps }
        match get_platform_fee_bps s1 with
        | .error e => (s1, .error e)
        | .ok old_fee =>
          (emit (.FeeUpdated admin old_fee fee_bps) s1, .ok ())

/-- Fee computation of `create_remittance`, from `lib.rs` 106-111: checked
multiply by the fee rate, then checked division by 10000. -/
def compute_fee (amount : Int) (fee_bps : Nat) : Except ContractError Int :=
  match checked_mul amount (fee_bps : Int) with
  | none => .error .Overflow
  | some p =>
    match checked_div p 10000 with
    | none => .error .Overflow
    | some fee => .ok fee

/-- Remittance creation, from `lib.rs` 89-138. -/
def create_remittance (s : State) (auths : List Address) (sender agent : Address)
    (amount : Int) (expiry : Option Nat) : State × Except ContractError Nat :=
  match require_auth auths sender with
  | .error e => (s, .error e)
  | .ok _ =>
    if amount ≤ 0 then (s, .error .InvalidAmount)
    else if ¬ is_agent_registered s agent then (s, .error .AgentNotRegistered)
    else
      match get_platform_fee_bps s with
      | .error e => (s, .error e)
      | .ok fee_bps =>
        match compute_fee amount fee_bps with
        | .error e => (s, .error e)
        | .ok fee =>
          match get_usdc_token s with
          | .error e => (s, .error e)
          | .ok usdc =>
            let s1 := addTransfer ⟨sender, s.contractAddr, amount⟩ s
            match get_remittance_counter s1 with
            | .error e => (s1, .error e)
            | .ok counter =>
              match checked_add_u64 counter 1 with
              | none => (s1, .error .Overflow)
              | some remittance_id =>
                let remittance : Remittance :=
                  ⟨remittance_id, sender, agent, amount, fee, .Pending, expiry⟩
                let s2 := set_remittance s1 remittance_id remittance
                let s3 : State := { s2 with remittance_counter := some remittance_id }
                let s4 := emit
                  (.RemittanceCreated remittance_id sender agent usdc amount fee) s3
                (s4, .ok remittance_id)

/-- Single payout confirmation, from `lib.rs` 140-202. -/
def confirm_payout (s : State) (auths : List Address) (now : Nat)
    (remittance_id : Nat) : State × Except ContractError Unit :=
  if is_paused s then (s, .error .ContractPaused)
  else
    match get_remittance s remittance_id with
    | .error e => (s, .error e)
    | .ok remittance =>
      match require_auth auths remittance.agent with
      | .error e => (s, .error e)
      | .ok _ =>
        if remittance.status ≠ .Pending then (s, .error .InvalidStatus)
        else if has_settlement_hash s remittance_id then
          (s, .error .DuplicateSettlement)
        else if expired remittance.expiry now then (s, .error .SettlementExpired)
        else
          match validate_address remittance.agent with
          | .error e => (s, .error e)
          | .ok _ =>
            match checked_sub remittance.amount remittance.fee with
            | none => (s, .error .Overflow)
            | some payout_amount =>
              match get_usdc_token s with
              | .error e => (s, .error e)
              | .ok usdc =>
                let s1 := addTransfer
                  ⟨s.contractAddr, remittance.agent, payout_amount⟩ s
                match get_accumulated_fees s1 with
                | .error e => (s1, .error e)
                | .ok current_fees =>
                  match checked_add current_fees remittance.fee with
                  | none => (s1, .error .Overflow)
                  | some new_fees =>
                    let s2 : State := { s1 with accumulated_fees := some new_fees }
                    let s3 := set_remittance s2 remittance_id
                      { remittance with status := .Completed }
                    let s4 := set_settlement_hash s3 remittance_id
                    let s5 := emit (.SettlementCompleted remittance.sender
                        remittance.agent usdc payout_amount)
                      (emit (.RemittanceCompleted remittance_id remittance.sender
                        remittance.agent usdc payout_amount) s4)
                    (s5, .ok ())

/-- Remittance cancellation, from `lib.rs` 204-229: refunds the gross amount
to the sender and marks the remittance `Cancelled`. -/
def cancel_remittance (s : State) (auths : List Address) (remittance_id : Nat) :
    State × Except ContractError Unit :=
  match get_remittance s remittance_id with
  | .error e => (s, .error e)
  | .ok remittance =>
    match require_auth auths remittance.sender with
    | .error e => (s, .error e)
    | .ok _ =>
      if remittance.status ≠ .Pending then (s, .error .InvalidStatus)
      else
        match get_usdc_token s with
        | .error e => (s, .error e)
        | .ok usdc =>
          let s1 := addTransfer
            ⟨s.contractAddr, remittance.sender, remittance.amount⟩ s
          let s2 := set_remittance s1 remittance_id
            { remittance with status := .Cancelled }
          let s3 := emit (.RemittanceCancelled remittance_id remittance.sender
            remittance.agent usdc remittance.amount) s2
          (s3, .ok ())

/-- Fee withdrawal, from `lib.rs` 231-255 (the recipient parameter is `to`
in the source, a reserved word in Lean). -/
def withdraw_fees (s : State) (auths : List Address) (dest : Address) :
    State × Except ContractError Unit :=
  match get_admin s with
  | .error e => (s, .error e)
  | .ok admin =>
    match require_auth auths admin with
    | .error e => (s, .error e)
    | .ok _ =>
      match validate_address dest with
      | .error e => (s, .error e)
      | .ok _ =>
        match get_accumulated_fees s with
        | .error e => (s, .error e)
        | .ok fees =>
          if fees ≤ 0 then (s, .error .NoFeesToWithdraw)
          else
            match get_usdc_token s with
            | .error e => (s, .error e)
            | .ok usdc =>
              let s1 := addTransfer ⟨s.contractAddr, dest, fees⟩ s
              let s2 : State := { s1 with accumulated_fees := some 0 }
              (emit (.FeesWithdrawn admin dest usdc fees) s2, .ok ())

/-- Pause switch, from `lib.rs` 277-285. -/
def pause (s : State) (auths : List Address) : State × Except ContractError Unit :=
  match get_admin s with
  | .error e => (s, .error e)
  | .ok admin =>
    match require_auth auths admin with
    | .error e => (s, .error e)
    | .ok _ => (emit (.Paused admin) (set_paused s true), .ok ())

/-- Unpause switch, from `lib.rs` 287-295. -/
def unpause (s : State) (auths : List Address) : State × Except ContractError Unit :=
  match get_admin s with
  | .error e => (s, .error e)
  | .ok admin =>
    match require_auth auths admin with
    | .error e => (s, .error e)
    | .ok _ => (emit (.Unpaused admin) (set_paused s false), .ok ())

/-- Phase 1 of `batch_settle`, from `lib.rs` 342-396: walk the entries
tracking seen ids, failing the whole batch on a duplicate id or on a
status, settlement-mark or expiry violation (each with
`BatchValidationFailed` after emitting a batch-failed event); the
remittance lookup and the address check instead propagate their own
errors through `?`.  No storage write, no transfer. -/
def batch_validate (s : State) (now : Nat) :
    List BatchSettlementEntry → List Nat → State × Except ContractError (List Remittance)
  | [], _ => (s, .ok [])
  | entry :: rest, seen_ids =>
    let remittance_id := entry.remittance_id
    if seen_ids.contains remittance_id then
      (emit (.BatchSettlementFailed 16) s, .error .BatchValidationFailed)
    else
      match get_remittance s remittance_id with
      | .error e => (s, .error e)
      | .ok remittance =>
        if remittance.status ≠ .Pending then
          (emit (.BatchSettlementFailed 16) s, .error .BatchValidationFailed)
        else if has_settlement_hash s remittance_id then
          (emit (.BatchSettlementFailed 16) s, .error .BatchValidationFailed)
        else if expired remittance.expiry now then
          (emit (.BatchSettlementFailed 16) s, .error .BatchValidationFailed)
        else
          match validate_address remittance.agent with
          | .error e => (s, .error e)
          | .ok _ =>
            match batch_validate s now rest (remittance_id :: seen_ids) with
            | (s2, .error e) => (s2, .error e)
            | (s2, .ok validated) => (s2, .ok (remittance :: validated))

/-- Phase 2 of `batch_settle`, from `lib.rs` 398-453: execute each validated
settlement (transfer the payout, mark the remittance `Completed`, set the
settlement mark, emit the completion events), accumulating the running fee
total and the settled ids; the fee total is not folded into storage here. -/
def batch_execute (usdc : Address) :
    State → Int → List Nat → List Remittance → State × Except ContractError (List Nat × Int)
  | s, total_fees, settled_ids, [] => (s, .ok (settled_ids, total_fees))
  | s, total_fees, settled_ids, remittance :: rest =>
    match checked_sub remittance.amount remittance.fee with
    | none => (s, .error .Overflow)
    | some payout_amount =>
      let s1 := addTransfer ⟨s.contractAddr, remittance.agent, payout_amount⟩ s
      match checked_add total_fees remittance.fee with
      | none => (s1, .error .Overflow)
      | some total2 =>
        let s2 := set_remittance s1 remittance.id
          { remittance with status := .Completed }
        let s3 := set_settlement_hash s2 remittance.id
        let s4 := emit (.SettlementCompleted remittance.sender remittance.agent
            usdc payout_amount)
          (emit (.RemittanceCompleted remittance.id remittance.sender
            remittance.agent usdc payout_amount) s3)
        batch_execute usdc s4 total2 (settled_ids ++ [remittance.id]) rest

/-- Batch settlement, from `lib.rs` 319-468: pause, emptiness and size
checks, then validate-only phase 1, then execute-only phase 2, then a
single checked addition folding the running fee total into
`accumulated_fees`. -/
def batch_settle (s : State) (now : Nat) (settlements : List BatchSettlementEntry) :
    State × Except ContractError BatchSettlementResult :=
  if is_paused s then (s, .error .ContractPaused)
  else if settlements.isEmpty then (s, .error .EmptyBatchSettlement)
  else if settlements.length > MAX_BATCH_SIZE then (s, .error .BatchTooLarge)
  else
    let s0 := emit (.BatchSettlementStarted settlements.length) s
    match batch_validate s0 now settlements [] with
    | (s1, .error e) => (s1, .error e)
    | (s1, .ok validated) =>
      match get_usdc_token s1 with
      | .error e => (s1, .error e)
      | .ok usdc =>
        match batch_execute usdc s1 0 [] validated with
        | (s2, .error e) => (s2, .error e)
        | (s2, .ok (settled_ids, total_fees)) =>
          match get_accumulated_fees s2 with
          | .error e => (s2, .error e)
          | .ok current_fees =>
            match checked_add current_fees total_fees with
            | none => (s2, .error .Overflow)
            | some new_fees =>
              let s3 : State := { s2 with accumulated_fees := some new_fees }
              let s4 := emit (.BatchSettlementCompleted settled_ids.length 0) s3
              (s4, .ok ⟨settled_ids⟩)

/-- Concrete sender principal used in the example states. -/
def senderA : Address := ⟨1, true⟩

/-- Concrete registered agent used in the example states. -/
def agentB : Address := ⟨2, true⟩

/-- Concrete admin principal used in the example states. -/
def adminC : Address := ⟨3, true⟩

/-- Concrete value-asset identifier used in the example states. -/
def tokenT : Address := ⟨4, true⟩

/-- Concrete contract address used in the example states. -/
def contractX : Address := ⟨5, true⟩

/-- Concrete pending remittance: amount 1000, fee 25, no expiry. -/
def rem1 : Remittance := ⟨1, senderA, agentB, 1000, 25, .Pending, none⟩

/-- Concrete completed (already settled) remittance. -/
def rem2 : Remittance := ⟨2, senderA, agentB, 2000, 50, .Completed, none⟩

/-- Concrete pending remittance with expiry 100. -/
def rem3 : Remittance := ⟨3, senderA, agentB, 4000, 100, .Pending, some 100⟩

/-- Concrete initialized state: fee rate 250 bps, remittance 1 pending,
remittance 2 completed and settlement-marked, remittance 3 pending with
expiry 100, accumulated fees 50. -/
def sampleState : State :=
  { contractAddr := contractX, admin := some adminC, usdc_token := some tokenT,
    platform_fee_bps := some 250, remittance_counter := some 3,
    accumulated_fees := some 50, paused := false,
    agents := [(agentB, true)], remittances := [(1, rem1), (2, rem2), (3, rem3)],
    settlement_hashes := [2], events := [], transfers := [] }

/-- Forced state: like `sampleState` but with the already-settled remittance
2 externally reset to `Pending` while its settlement mark remains. -/
def rem2p : Remittance := ⟨2, senderA, agentB, 2000, 50, .Pending, none⟩

/-- State for the forced-reset scenario. -/
def forcedState : State :=
  { sampleState with remittances := [(1, rem1), (2, rem2p), (3, rem3)] }

/-- Equality of the claim-relevant observable components: remittance records
(hence statuses), accumulated fees, settlement marks and executed
transfers. -/
def coreEq (s t : State) : Prop :=
  s.remittances = t.remittances ∧ s.accumulated_fees = t.accumulated_fees ∧
  s.settlement_hashes = t.settlement_hashes ∧ s.transfers = t.transfers

/-- Confirmation operations covered by the conservation claim: single
payout confirmations and batch settlements. -/
inductive ConfirmOp where
  | single (auths : List Address) (now : Nat) (remittance_id : Nat)
  | batch (now : Nat) (settlements : List BatchSettlementEntry)

/-- Fee sum of a list of remittances. -/
def sumFees (rs : List Remittance) : Int := (rs.map Remittance.fee).sum

/-- Fees that one successful confirmation operation on state `s` adds: the
confirmed remittance's fee, resp. the fees of the batch's validated
remittances. -/
def opFees (s : State) : ConfirmOp → Int
  | .single _ _ remittance_id =>
    match get_remittance s remittance_id with
    | .ok r => r.fee
    | .error _ => 0
  | .batch now settlements =>
    match batch_validate (emit (.BatchSettlementStarted settlements.length) s)
        now settlements [] with
    | (_, .ok validated) => sumFees validated
    | (_, .error _) => 0

/-- Apply one confirmation operation (the batch result is collapsed to unit,
as the conservation claim only concerns the state). -/
def applyOp (s : State) : ConfirmOp → State × Except ContractError Unit
  | .single auths now remittance_id => confirm_payout s auths now remittance_id
  | .batch now settlements =>
    match batch_settle s now settlements with
    | (s3, .ok _) => (s3, .ok ())
    | (s3, .error e) => (s3, .error e)

/-- Run a sequence of confirmation operations; `some (final, total)` when
every operation succeeds, `total` being the sum of the confirmed fees. -/
def runOps : State → List ConfirmOp → Option (State × Int)
  | s, [] => some (s, 0)
  | s, op :: ops =>
    match applyOp s op with
    | (s2, .ok _) =>
      match runOps s2 ops with
      | some (sf, total) => some (sf, opFees s op + total)
      | none => none
    | (_, .error _) => none

/-- State with a zero accumulated fee balance, for the conservation witness. -/
def zeroFeeState : State := { sampleState with accumulated_fees := some 0 }

theorem getAssoc_setAssoc_self {κ δ : Type} [DecidableEq κ]
    (l : List (κ × δ)) (k : κ) (v : δ) :
    getAssoc (setAssoc l k v) k = some v := by
  induction l with
  | nil => simp [setAssoc, getAssoc]
  | cons hd tl ih =>
    obtain ⟨k1, v1⟩ := hd
    by_cases h : k1 = k <;> simp [setAssoc, getAssoc, h, ih]

theorem get_usdc_token_error (s : State) (e : ContractError)
    (h : get_usdc_token s = .error e) : e = .NotInitialized := by
  unfold get_usdc_token at h
  cases htok : s.usdc_token <;> rw [htok] at h <;> simp_all

theorem get_platform_fee_bps_error (s : State) (e : ContractError)
    (h : get_platform_fee_bps s = .error e) : e = .NotInitialized := by
  unfold get_platform_fee_bps at h
  cases hfee : s.platform_fee_bps <;> rw [hfee] at h <;> simp_all

theorem get_remittance_counter_error (s : State) (e : ContractError)
    (h : get_remittance_counter s = .error e) : e = .NotInitialized := by
  unfold get_remittance_counter at h
  cases hc : s.remittance_counter <;> rw [hc] at h <;> simp_all

theorem get_accumulated_fees_error (s : State) (e : ContractError)
    (h : get_accumulated_fees s = .error e) : e = .NotInitialized := by
  unfold get_accumulated_fees at h
  cases hf : s.accumulated_fees <;> rw [hf] at h <;> simp_all

theorem get_remittance_error (s : State) (remittance_id : Nat) (e : ContractError)
    (h : get_remittance s remittance_id = .error e) : e = .RemittanceNotFound := by
  unfold get_remittance at h
  cases hg : getAssoc s.remittances remittance_id <;> rw [hg] at h <;> simp_all

theorem require_auth_error (auths : List Address) (a : Address) (e : ContractError)
    (h : require_auth auths a = .error e) : e = .Unauthorized := by
  unfold require_auth at h
  by_cases hm : a ∈ auths <;> simp_all

theorem compute_fee_error (amount : Int) (fee_bps : Nat) (e : ContractError)
    (h : compute_fee amount fee_bps = .error e) : e = .Overflow := by
  unfold compute_fee at h
  split at h
  · exact (Except.error.inj h).symm
  · split at h
    · exact (Except.error.inj h).symm
    · simp at h

theorem checked_add_some (a b c : Int) (h : checked_add a b = some c) : c = a + b := by
  unfold checked_add at h
  by_cases hf : fitsI128 (a + b) <;> simp_all

theorem checked_sub_some (a b c : Int) (h : checked_sub a b = some c) : c = a - b := by
  unfold checked_sub at h
  by_cases hf : fitsI128 (a - b) <;> simp_all

/-- C4: the fee computed by `create_remittance` is correct and bounded: for
amount > 0 and fee_bps ≤ 10000, a successful computation returns
floor(amount * fee_bps / 10000), which lies in [0, amount]; the checked
arithmetic fails, necessarily with `Overflow`, exactly when
amount * fee_bps exceeds the signed 128-bit range. -/
theorem compute_fee_correct (amount : Int) (fee_bps : Nat)
    (hpos : 0 < amount) (hbps : fee_bps ≤ 10000) :
    (∀ f, compute_fee amount fee_bps = .ok f →
        f = amount * (fee_bps : Int) / 10000 ∧ 0 ≤ f ∧ f ≤ amount) ∧
    (∀ e, compute_fee amount fee_bps = .error e →
        e = .Overflow ∧ I128_MAX < amount * (fee_bps : Int)) ∧
    (I128_MAX < amount * (fee_bps : Int) →
        compute_fee amount fee_bps = .error .Overflow) := by
  have hfb : (0 : Int) ≤ (fee_bps : Int) := Int.natCast_nonneg _
  have hprod : 0 ≤ amount * (fee_bps : Int) := mul_nonneg hpos.le hfb
  have hmin : I128_MIN ≤ amount * (fee_bps : Int) :=
    le_trans (by norm_num [I128_MIN]) hprod
  by_cases hov : amount * (fee_bps : Int) ≤ I128_MAX
  · have hfits : fitsI128 (amount * (fee_bps : Int)) = true := by
      simp [fitsI128, hmin, hov]
    have hcf : compute_fee amount fee_bps =
        .ok (Int.tdiv (amount * (fee_bps : Int)) 10000) := by
      unfold compute_fee checked_mul checked_div
      rw [hfits]
      simp [I128_MIN]
    have htd : Int.tdiv (amount * (fee_bps : Int)) 10000 =
        amount * (fee_bps : Int) / 10000 :=
      Int.tdiv_eq_ediv hprod (by norm_num)
    refine ⟨?_, ?_, ?_⟩
    · intro f hf
      rw [hcf] at hf
      have hfe : f = Int.tdiv (amount * (fee_bps : Int)) 10000 :=
        (Except.ok.inj hf).symm
      refine ⟨hfe.trans htd, ?_, ?_⟩
      · rw [hfe, htd]
        exact Int.ediv_nonneg hprod (by norm_num)
      · rw [hfe, htd]
        calc amount * (fee_bps : Int) / 10000
            ≤ amount * 10000 / 10000 := by
              apply Int.ediv_le_ediv (by norm_num)
              exact mul_le_mul_of_nonneg_left (by exact_mod_cast hbps) hpos.le
          _ = amount := Int.mul_ediv_cancel amount (by norm_num)
    · intro e he
      rw [hcf] at he
      cases he
    · intro hlt
      exact absurd hov (not_le.mpr hlt)
  · have hfits : fitsI128 (amount * (fee_bps : Int)) = false := by
      simp only [fitsI128, Bool.and_eq_false_iff, decide_eq_false_iff_not]
      exact Or.inr hov
    have hcf : compute_fee amount fee_bps = .error .Overflow := by
      unfold compute_fee checked_mul
      rw [hfits]
      rfl
    refine ⟨?_, ?_, fun _ => hcf⟩
    · intro f hf
      rw [hcf] at hf
      cases hf
    · intro e he
      rw [hcf] at he
      exact ⟨(Except.error.inj he).symm, not_le.mp hov⟩

/-- Witness for C4 at the spec's own example: amount 10000 at 500 bps gives
fee 500, which is nonnegative and at most the amount. -/
theorem compute_fee_correct_witness :
    compute_fee 10000 500 = .ok 500 ∧
    ((500 : Int) = 10000 * (500 : Nat) / 10000 ∧ (0 : Int) ≤ 500 ∧ (500 : Int) ≤ 10000) := by
  refine ⟨by decide, ?_⟩
  exact (compute_fee_correct 10000 500 (by decide) (by decide)).1 500 (by decide)

/-- C6 (evaluation of the code at the failing input): a batch containing an
unknown remittance id fails with `RemittanceNotFound`, propagated straight
out of the lookup, not with the claim's `BatchValidationFailed`; the
duplicate-id and non-Pending-status violations, by contrast, do fail with
`BatchValidationFailed` as claimed. -/
theorem batch_settle_unknown_id_error :
    (batch_settle sampleState 0 [⟨1⟩, ⟨999⟩]).2 = .error .RemittanceNotFound ∧
    ContractError.RemittanceNotFound ≠ ContractError.BatchValidationFailed ∧
    (batch_settle sampleState 0 [⟨1⟩, ⟨1⟩]).2 = .error .BatchValidationFailed ∧
    (batch_settle sampleState 0 [⟨2⟩]).2 = .error .BatchValidationFailed := by
  refine ⟨by decide, by decide, by decide, by decide⟩

/-- C9 (evaluation of the code at the failing input): with stored fee rate
250, an admin-authorized `update_fee 500` succeeds and stores 500, but the
emitted fee-updated event carries 500 in its old-fee field rather than the
pre-call rate 250, because the source stores the new rate before reading
the "old" one back. -/
theorem update_fee_event_old_fee :
    sampleState.platform_fee_bps = some 250 ∧
    (update_fee sampleState [adminC] 500).2 = .ok () ∧
    (update_fee sampleState [adminC] 500).1.platform_fee_bps = some 500 ∧
    (update_fee sampleState [adminC] 500).1.events =
      Event.FeeUpdated adminC 500 500 :: sampleState.events ∧
    (500 : Nat) ≠ 250 := by
  refine ⟨rfl, by decide, by decide, by decide, by decide⟩

/-- C10: the first constructor call succeeds for every admin, asset and
in-range fee rate with an empty authorization set (no principal authorized
the call) and installs that admin; every subsequent call fails with
`AlreadyInitialized`. -/
theorem init_contract_no_auth (s : State) (admin usdc : Address) (fee_bps : Nat)
    (huninit : s.admin = none) (hbps : fee_bps ≤ 10000) :
    (init_contract s [] admin usdc fee_bps).2 = .ok () ∧
    (init_contract s [] admin usdc fee_bps).1.admin = some admin ∧
    (∀ (auths : List Address) (a u : Address) (f : Nat),
      (init_contract (init_contract s [] admin usdc fee_bps).1 auths a u f).2 =
        .error .AlreadyInitialized) := by
  unfold init_contract has_admin
  rw [huninit]
  simp [Nat.not_lt.mpr hbps]

/-- Witness for C10 on a blank state. -/
theorem init_contract_no_auth_witness :
    (init_contract ⟨contractX, none, none, none, none, none, false, [], [], [], [], []⟩
        [] adminC tokenT 250).2 = .ok () ∧
    (init_contract ⟨contractX, none, none, none, none, none, false, [], [], [], [], []⟩
        [] adminC tokenT 250).1.admin = some adminC ∧
    (init_contract (init_contract
        ⟨contractX, none, none, none, none, none, false, [], [], [], [], []⟩
        [] adminC tokenT 250).1 [adminC] adminC tokenT 100).2 =
      .error .AlreadyInitialized := by
  have h := init_contract_no_auth
    ⟨contractX, none, none, none, none, none, false, [], [], [], [], []⟩
    adminC tokenT 250 rfl (by decide)
  exact ⟨h.1, h.2.1, h.2.2 [adminC] adminC tokenT 100⟩

/-- C3 (evaluation of the code): `create_remittance` consults no limit
tracker at all — its failures are exhausted by authorization, amount,
agent-registration, missing-initialization and overflow errors, so it can
never fail with `DailyLimitExceeded`, and no transfer history is recorded
(the `DailyLimit` and `TransferRecord` types of `types.rs` are never read
or written by `lib.rs`). -/
theorem create_remittance_no_daily_limit (s : State) (auths : List Address)
    (sender agent : Address) (amount : Int) (expiry : Option Nat) (e : ContractError)
    (herr : (create_remittance s auths sender agent amount expiry).2 = .error e) :
    e = .Unauthorized ∨ e = .InvalidAmount ∨ e = .AgentNotRegistered ∨
    e = .NotInitialized ∨ e = .Overflow := by
  unfold create_remittance at herr
  split at herr
  · rename_i e1 hra
    simp only at herr
    exact Or.inl ((Except.error.inj herr).symm ▸ require_auth_error auths sender e1 hra)
  · split at herr
    · exact Or.inr (Or.inl (Except.error.inj herr).symm)
    · split at herr
      · exact Or.inr (Or.inr (Or.inl (Except.error.inj herr).symm))
      · split at herr
        · rename_i e1 hbps
          exact Or.inr (Or.inr (Or.inr (Or.inl
            ((Except.error.inj herr).symm ▸ get_platform_fee_bps_error s e1 hbps))))
        · split at herr
          · rename_i e1 hcf
            exact Or.inr (Or.inr (Or.inr (Or.inr
              ((Except.error.inj herr).symm ▸ compute_fee_error amount _ e1 hcf))))
          · split at herr
            · rename_i e1 htok
              exact Or.inr (Or.inr (Or.inr (Or.inl
                ((Except.error.inj herr).symm ▸ get_usdc_token_error s e1 htok))))
            · dsimp only at herr
              split at herr
              · rename_i e1 hctr
                exact Or.inr (Or.inr (Or.inr (Or.inl
                  ((Except.error.inj herr).symm ▸
                    get_remittance_counter_error _ e1 hctr))))
              · split at herr
                · exact Or.inr (Or.inr (Or.inr (Or.inr (Except.error.inj herr).symm)))
                · simp at herr

/-- Witness for C3: an unauthorized creation attempt fails with
`Unauthorized`, which the theorem places in the exhaustive error list —
`DailyLimitExceeded` is not among the possibilities. -/
theorem create_remittance_no_daily_limit_witness :
    (create_remittance sampleState [] senderA agentB 400 none).2 =
      .error .Unauthorized ∧
    (ContractError.Unauthorized = .Unauthorized ∨
      ContractError.Unauthorized = .InvalidAmount ∨
      ContractError.Unauthorized = .AgentNotRegistered ∨
      ContractError.Unauthorized = .NotInitialized ∨
      ContractError.Unauthorized = .Overflow) := by
  refine ⟨by decide, ?_⟩
  exact create_remittance_no_daily_limit sampleState [] senderA agentB 400 none
    .Unauthorized (by decide)

/-- C7: cancelling a pending remittance succeeds, refunds the full gross
amount (not amount minus fee) from custody to the sender, marks the
remittance `Cancelled`, and leaves the accumulated fees untouched. -/
theorem cancel_remittance_refunds_gross (s : State) (auths : List Address)
    (remittance_id : Nat) (r : Remittance) (usdc : Address)
    (hget : get_remittance s remittance_id = .ok r)
    (hauth : r.sender ∈ auths)
    (hstatus : r.status = .Pending)
    (htok : s.usdc_token = some usdc) :
    (cancel_remittance s auths remittance_id).2 = .ok () ∧
    (cancel_remittance s auths remittance_id).1.transfers =
      ⟨s.contractAddr, r.sender, r.amount⟩ :: s.transfers ∧
    get_remittance (cancel_remittance s auths remittance_id).1 remittance_id =
      .ok { r with status := .Cancelled } ∧
    (cancel_remittance s auths remittance_id).1.accumulated_fees =
      s.accumulated_fees := by
  unfold cancel_remittance
  rw [hget]
  simp only [require_auth, if_pos hauth, hstatus]
  unfold get_usdc_token
  rw [htok]
  simp [get_remittance, set_remittance, addTransfer, emit, getAssoc_setAssoc_self]

/-- Witness for C7: cancelling the pending remittance of amount 1000 and fee
25 refunds the full 1000. -/
theorem cancel_remittance_refunds_gross_witness :
    (cancel_remittance sampleState [senderA] 1).2 = .ok () ∧
    (cancel_remittance sampleState [senderA] 1).1.transfers =
      ⟨contractX, senderA, 1000⟩ :: sampleState.transfers ∧
    get_remittance (cancel_remittance sampleState [senderA] 1).1 1 =
      .ok { rem1 with status := .Cancelled } ∧
    (cancel_remittance sampleState [senderA] 1).1.accumulated_fees =
      sampleState.accumulated_fees := by
  have h := cancel_remittance_refunds_gross sampleState [senderA] 1 rem1 tokenT
    (by decide) (by decide) (by decide) (by decide)
  exact ⟨h.1, h.2.1, h.2.2.1, h.2.2.2⟩


theorem require_auth_ok (auths : List Address) (a : Address) (u : Unit)
    (h : require_auth auths a = .ok u) : a ∈ auths := by
  unfold require_auth at h
  by_cases hm : a ∈ auths <;> simp_all

theorem expired_true (x : Option Nat) (now : Nat) (h : expired x now = true) :
    ∃ t, x = some t ∧ t < now := by
  unfold expired at h
  cases x <;> simp_all

theorem get_accumulated_fees_ok (s : State) (v : Int)
    (h : get_accumulated_fees s = .ok v) : s.accumulated_fees = some v := by
  unfold get_accumulated_fees at h
  cases hf : s.accumulated_fees <;> rw [hf] at h <;> simp_all

theorem confirm_payout_ok_inv (s s2 : State) (auths : List Address)
    (now remittance_id : Nat)
    (h : confirm_payout s auths now remittance_id = (s2, .ok ())) :
    ∃ r current_fees,
      is_paused s = false ∧
      get_remittance s remittance_id = .ok r ∧
      r.agent ∈ auths ∧
      r.status = .Pending ∧
      has_settlement_hash s remittance_id = false ∧
      s.accumulated_fees = some current_fees ∧
      is_paused s2 = false ∧
      get_remittance s2 remittance_id = .ok { r with status := .Completed } ∧
      s2.accumulated_fees = some (current_fees + r.fee) := by
  unfold confirm_payout at h
  split at h
  · simp at h
  · rename_i hnp
    split at h
    · simp at h
    · rename_i r hget
      split at h
      · simp at h
      · rename_i u hauth
        split at h
        · simp at h
        · rename_i hstatus
          split at h
          · simp at h
          · rename_i hmark
            split at h
            · simp at h
            · rename_i hexp
              split at h
              · simp at h
              · split at h
                · simp at h
                · rename_i payout hsub
                  split at h
                  · simp at h
                  · rename_i usdc htok
                    dsimp only at h
                    split at h
                    · simp at h
                    · rename_i cur hcur
                      split at h
                      · simp at h
                      · rename_i nf hadd
                        have hs2 : _ = s2 := congrArg Prod.fst h
                        have hpf : is_paused s = false := by
                          simpa using hnp
                        have hcur2 : s.accumulated_fees = some cur := by
                          have hx := get_accumulated_fees_ok _ _ hcur
                          simpa [addTransfer] using hx
                        have hnf : nf = cur + r.fee := checked_add_some _ _ _ hadd
                        subst hs2
                        refine ⟨r, cur, hpf, hget, require_auth_ok _ _ _ hauth,
                          not_not.mp hstatus, by simpa using hmark, hcur2, ?_, ?_, ?_⟩
                        · simpa [emit, set_settlement_hash, set_remittance,
                            addTransfer, is_paused] using hpf
                        · simp [emit, set_settlement_hash, set_remittance,
                            addTransfer, get_remittance, getAssoc_setAssoc_self]
                        · simp [emit, set_settlement_hash, set_remittance,
                            addTransfer, hnf]

theorem confirm_payout_success (s : State) (auths : List Address)
    (now remittance_id : Nat) (r : Remittance) (usdc : Address) (current_fees : Int)
    (hpaused : is_paused s = false)
    (hget : get_remittance s remittance_id = .ok r)
    (hauth : r.agent ∈ auths)
    (hstatus : r.status = .Pending)
    (hmark : has_settlement_hash s remittance_id = false)
    (hexp : expired r.expiry now = false)
    (haddr : r.agent.wellFormed = true)
    (htok : s.usdc_token = some usdc)
    (hfees : s.accumulated_fees = some current_fees)
    (hsub : fitsI128 (r.amount - r.fee) = true)
    (hadd : fitsI128 (current_fees + r.fee) = true) :
    (confirm_payout s auths now remittance_id).2 = .ok () := by
  unfold confirm_payout
  rw [hpaused, hget]
  simp [require_auth, hauth, hstatus, hmark, hexp, validate_address, haddr,
    checked_sub, hsub, get_usdc_token, htok, addTransfer, get_accumulated_fees,
    hfees, checked_add, hadd]

theorem confirm_payout_expired_eq (s : State) (auths : List Address)
    (now remittance_id : Nat) (r : Remittance)
    (hpaused : is_paused s = false)
    (hget : get_remittance s remittance_id = .ok r)
    (hauth : r.agent ∈ auths)
    (hstatus : r.status = .Pending)
    (hmark : has_settlement_hash s remittance_id = false)
    (hexp : expired r.expiry now = true) :
    confirm_payout s auths now remittance_id = (s, .error .SettlementExpired) := by
  unfold confirm_payout
  rw [hpaused, hget]
  simp [require_auth, hauth, hstatus, hmark, hexp]


theorem confirm_never_ok_after_mark (s : State) (auths : List Address)
    (now remittance_id : Nat)
    (hmark : has_settlement_hash s remittance_id = true) :
    (confirm_payout s auths now remittance_id).2 ≠ .ok () := by
  intro hok
  have hpair : confirm_payout s auths now remittance_id =
      ((confirm_payout s auths now remittance_id).1, .ok ()) :=
    Prod.ext_iff.mpr ⟨rfl, hok⟩
  obtain ⟨r, cur, _, _, _, _, hmf, _⟩ := confirm_payout_ok_inv _ _ _ _ _ hpair
  rw [hmark] at hmf
  cases hmf

/-- C2 (amended): once the settlement mark is set for an id, confirmation of
that id always fails; it fails with `DuplicateSettlement` whenever the
status check passes (in particular when the status was externally forced
back to `Pending`), while the second of two plain consecutive
confirmations fails with `InvalidStatus` (the status then being
`Completed`), not with `DuplicateSettlement`. -/
theorem settlement_idempotent_amended :
    (∀ (s : State) (auths : List Address) (now remittance_id : Nat),
      has_settlement_hash s remittance_id = true →
      (confirm_payout s auths now remittance_id).2 ≠ .ok ()) ∧
    (∀ (s : State) (auths : List Address) (now remittance_id : Nat) (r : Remittance),
      has_settlement_hash s remittance_id = true →
      is_paused s = false →
      get_remittance s remittance_id = .ok r →
      r.agent ∈ auths →
      r.status = .Pending →
      (confirm_payout s auths now remittance_id).2 = .error .DuplicateSettlement) ∧
    (∀ (s s2 : State) (auths : List Address) (now now2 remittance_id : Nat),
      confirm_payout s auths now remittance_id = (s2, .ok ()) →
      (confirm_payout s2 auths now2 remittance_id).2 = .error .InvalidStatus) := by
  refine ⟨confirm_never_ok_after_mark, ?_, ?_⟩
  · intro s auths now remittance_id r hmark hpaused hget hauth hstatus
    unfold confirm_payout
    rw [hpaused, hget]
    simp [require_auth, hauth, hstatus, hmark]
  · intro s s2 auths now now2 remittance_id h
    obtain ⟨r, cur, hpf, hget, hauth, hstatus, hmark, hcur, hpf2, hget2, hfees2⟩ :=
      confirm_payout_ok_inv _ _ _ _ _ h
    unfold confirm_payout
    rw [hpf2, hget2]
    simp [require_auth, hauth]



/-- Witness for C2: on the forced-reset state confirmation of id 2 fails
with `DuplicateSettlement`; after a genuine first confirmation of id 1 the
second attempt fails with `InvalidStatus`. -/
theorem settlement_idempotent_amended_witness :
    (confirm_payout forcedState [agentB] 0 2).2 = .error .DuplicateSettlement ∧
    (confirm_payout (confirm_payout sampleState [agentB] 0 1).1 [agentB] 5 1).2 =
      .error .InvalidStatus := by
  refine ⟨?_, ?_⟩
  · exact settlement_idempotent_amended.2.1 forcedState [agentB] 0 2 rem2p
      (by decide) (by decide) (by decide) (by decide) (by decide)
  · exact settlement_idempotent_amended.2.2 sampleState
      (confirm_payout sampleState [agentB] 0 1).1 [agentB] 0 5 1 (by decide)

/-- C2 counterexample to the claim as stated: the second of two consecutive
confirmations of the same pending remittance fails with `InvalidStatus`,
not `DuplicateSettlement` (the status check precedes the mark check). -/
theorem second_confirm_not_duplicate_error :
    (confirm_payout sampleState [agentB] 0 1).2 = .ok () ∧
    (confirm_payout (confirm_payout sampleState [agentB] 0 1).1 [agentB] 0 1).2 =
      .error .InvalidStatus ∧
    ContractError.InvalidStatus ≠ ContractError.DuplicateSettlement := by
  refine ⟨by decide, by decide, by decide⟩

/-- C8: the expiry boundary is inclusive: a pending, unmarked remittance with
expiry t confirms successfully at ledger time t, while at any time
strictly after t the call fails with `SettlementExpired` leaving the raw
state untouched; a remittance without expiry confirms at every time. -/
theorem confirm_payout_expiry_boundary (s : State) (auths : List Address)
    (remittance_id : Nat) (r : Remittance) (usdc : Address) (current_fees : Int)
    (hpaused : is_paused s = false)
    (hget : get_remittance s remittance_id = .ok r)
    (hauth : r.agent ∈ auths)
    (hstatus : r.status = .Pending)
    (hmark : has_settlement_hash s remittance_id = false)
    (haddr : r.agent.wellFormed = true)
    (htok : s.usdc_token = some usdc)
    (hfees : s.accumulated_fees = some current_fees)
    (hsub : fitsI128 (r.amount - r.fee) = true)
    (hadd : fitsI128 (current_fees + r.fee) = true) :
    (∀ t, r.expiry = some t →
      (confirm_payout s auths t remittance_id).2 = .ok () ∧
      ∀ now, t < now →
        confirm_payout s auths now remittance_id = (s, .error .SettlementExpired)) ∧
    (r.expiry = none →
      ∀ now, (confirm_payout s auths now remittance_id).2 = .ok ()) := by
  refine ⟨?_, ?_⟩
  · intro t ht
    refine ⟨?_, ?_⟩
    · exact confirm_payout_success s auths t remittance_id r usdc current_fees
        hpaused hget hauth hstatus hmark (by simp [expired, ht]) haddr htok
        hfees hsub hadd
    · intro now hnow
      exact confirm_payout_expired_eq s auths now remittance_id r
        hpaused hget hauth hstatus hmark (by simp [expired, ht, hnow])
  · intro hnone now
    exact confirm_payout_success s auths now remittance_id r usdc current_fees
      hpaused hget hauth hstatus hmark (by simp [expired, hnone]) haddr htok
      hfees hsub hadd

/-- Witness for C8 on remittance 3 (expiry 100): confirmation at time 100
succeeds, at time 101 fails with `SettlementExpired` leaving the state
unchanged. -/
theorem confirm_payout_expiry_boundary_witness :
    (confirm_payout sampleState [agentB] 100 3).2 = .ok () ∧
    confirm_payout sampleState [agentB] 101 3 =
      (sampleState, .error .SettlementExpired) := by
  have h := confirm_payout_expiry_boundary sampleState [agentB] 3 rem3 tokenT 50
    (by decide) (by decide) (by decide) (by decide) (by decide) (by decide)
    (by decide) (by decide) (by decide) (by decide)
  obtain ⟨h1, _⟩ := h
  obtain ⟨hok, herr⟩ := h1 100 (by decide)
  exact ⟨hok, herr 101 (by decide)⟩




theorem coreEq_refl (s : State) : coreEq s s := ⟨rfl, rfl, rfl, rfl⟩

theorem batch_validate_core (now : Nat) :
    ∀ (entries : List BatchSettlementEntry) (seen : List Nat) (s : State),
      coreEq (batch_validate s now entries seen).1 s := by
  intro entries
  induction entries with
  | nil => intro seen s; exact coreEq_refl s
  | cons entry rest ih =>
    intro seen s
    unfold batch_validate
    dsimp only
    split
    · exact coreEq_refl s
    · split
      · exact coreEq_refl s
      · split
        · exact coreEq_refl s
        · split
          · exact coreEq_refl s
          · split
            · exact coreEq_refl s
            · split
              · exact coreEq_refl s
              · split
                · rename_i hrec
                  have hx := ih (entry.remittance_id :: seen) s
                  rw [hrec] at hx
                  exact hx
                · rename_i hrec
                  have hx := ih (entry.remittance_id :: seen) s
                  rw [hrec] at hx
                  exact hx

theorem batch_execute_error (usdc : Address) :
    ∀ (rs : List Remittance) (s : State) (total : Int) (ids : List Nat)
      (e : ContractError),
      (batch_execute usdc s total ids rs).2 = .error e → e = .Overflow := by
  intro rs
  induction rs with
  | nil => intro s total ids e h; simp [batch_execute] at h
  | cons r rest ih =>
    intro s total ids e h
    unfold batch_execute at h
    split at h
    · exact (Except.error.inj h).symm
    · split at h
      · exact (Except.error.inj h).symm
      · exact ih _ _ _ _ h

theorem batch_settle_error_core (s : State) (now : Nat)
    (settlements : List BatchSettlementEntry) (s2 : State) (e : ContractError)
    (h : batch_settle s now settlements = (s2, .error e))
    (hO : e ≠ .Overflow) (hN : e ≠ .NotInitialized) : coreEq s2 s := by
  unfold batch_settle at h
  split at h
  · obtain ⟨h1, _⟩ := Prod.mk.injEq .. |>.mp h
    exact h1 ▸ coreEq_refl s
  · split at h
    · obtain ⟨h1, _⟩ := Prod.mk.injEq .. |>.mp h
      exact h1 ▸ coreEq_refl s
    · split at h
      · obtain ⟨h1, _⟩ := Prod.mk.injEq .. |>.mp h
        exact h1 ▸ coreEq_refl s
      · dsimp only at h
        split at h
        · rename_i s1 e1 hbv
          obtain ⟨h1, _⟩ := Prod.mk.injEq .. |>.mp h
          have hx := batch_validate_core now settlements []
            (emit (.BatchSettlementStarted settlements.length) s)
          rw [hbv] at hx
          exact h1 ▸ hx
        · rename_i s1 validated hbv
          split at h
          · rename_i e1 htok
            exfalso
            obtain ⟨_, h2⟩ := Prod.mk.injEq .. |>.mp h
            exact hN ((Except.error.inj h2) ▸ get_usdc_token_error _ _ htok)
          · rename_i usdc htok
            split at h
            · rename_i s3 e1 hbe
              exfalso
              obtain ⟨_, h2⟩ := Prod.mk.injEq .. |>.mp h
              apply hO
              rw [← Except.error.inj h2]
              exact batch_execute_error usdc validated s1 0 [] e1
                (by rw [hbe])
            · rename_i s3 p hbe
              split at h
              · rename_i e1 hfees
                exfalso
                obtain ⟨_, h2⟩ := Prod.mk.injEq .. |>.mp h
                exact hN ((Except.error.inj h2) ▸ get_accumulated_fees_error _ _ hfees)
              · rename_i cur hfees
                split at h
                · exfalso
                  obtain ⟨_, h2⟩ := Prod.mk.injEq .. |>.mp h
                  exact hO (Except.error.inj h2).symm
                · simp at h

/-- C1: batch settlement is all-or-nothing.  Under the host's transactional
invocation semantics any error leaves the entire observable state equal to
the pre-state; moreover every pre-execution failure (the pause, emptiness
and size checks and the whole of phase 1 — every error kind except the
phase-2-only `Overflow` and `NotInitialized`) leaves even the raw state's
remittance statuses, accumulated fees, settlement marks and transfer log
untouched, so a batch with any entry failing validation changes no status
and executes no transfer. -/
theorem batch_settle_all_or_nothing (s : State) (now : Nat)
    (settlements : List BatchSettlementEntry) :
    (∀ e, (invoke (fun t => batch_settle t now settlements) s).2 = .error e →
        (invoke (fun t => batch_settle t now settlements) s).1 = s) ∧
    (∀ e, (batch_settle s now settlements).2 = .error e →
        e ≠ .Overflow → e ≠ .NotInitialized →
        coreEq (batch_settle s now settlements).1 s) := by
  refine ⟨?_, ?_⟩
  · intro e h
    unfold invoke at h ⊢
    cases hbs : batch_settle s now settlements with
    | mk s2 r =>
      have hbs2 : (fun t => batch_settle t now settlements) s = (s2, r) := hbs
      rw [hbs2] at h ⊢
      cases r with
      | error e1 => rfl
      | ok v => simp at h
  · intro e h hO hN
    have hpair : batch_settle s now settlements =
        ((batch_settle s now settlements).1, .error e) :=
      Prod.ext_iff.mpr ⟨rfl, h⟩
    exact batch_settle_error_core s now settlements _ e hpair hO hN

/-- Witness for C1: the batch [1, 2] (remittance 2 already completed) fails
validation; both the committed and the raw state keep every status, fee,
mark and transfer of the pre-state. -/
theorem batch_settle_all_or_nothing_witness :
    (invoke (fun t => batch_settle t 0 [⟨1⟩, ⟨2⟩]) sampleState).1 = sampleState ∧
    coreEq (batch_settle sampleState 0 [⟨1⟩, ⟨2⟩]).1 sampleState := by
  have h := batch_settle_all_or_nothing sampleState 0 [⟨1⟩, ⟨2⟩]
  exact ⟨h.1 .BatchValidationFailed (by decide),
    h.2 .BatchValidationFailed (by decide) (by decide) (by decide)⟩












theorem batch_execute_fees_comp (usdc : Address) :
    ∀ (rs : List Remittance) (s : State) (total : Int) (ids : List Nat),
      ((batch_execute usdc s total ids rs).1).accumulated_fees =
        s.accumulated_fees := by
  intro rs
  induction rs with
  | nil => intro s total ids; rfl
  | cons r rest ih =>
    intro s total ids
    unfold batch_execute
    split
    · rfl
    · split
      · rfl
      · rw [ih]
        rfl

theorem batch_execute_ok_total (usdc : Address) :
    ∀ (rs : List Remittance) (s s3 : State) (total : Int) (ids ids2 : List Nat)
      (tot : Int),
      batch_execute usdc s total ids rs = (s3, .ok (ids2, tot)) →
      tot = total + sumFees rs := by
  intro rs
  induction rs with
  | nil =>
    intro s s3 total ids ids2 tot h
    unfold batch_execute at h
    obtain ⟨-, h2⟩ := Prod.mk.injEq .. |>.mp h
    obtain ⟨-, h3⟩ := Prod.mk.injEq .. |>.mp (Except.ok.inj h2)
    simp [sumFees, ← h3]
  | cons r rest ih =>
    intro s s3 total ids ids2 tot h
    unfold batch_execute at h
    split at h
    · simp at h
    · rename_i payout hsub
      split at h
      · simp at h
      · rename_i total2 hadd
        have ht2 : total2 = total + r.fee := checked_add_some _ _ _ hadd
        have hrec := ih _ _ _ _ _ _ h
        rw [hrec, ht2]
        simp [sumFees]
        ring

theorem batch_settle_ok_inv (s s2 : State) (now : Nat)
    (settlements : List BatchSettlementEntry) (res : BatchSettlementResult)
    (h : batch_settle s now settlements = (s2, .ok res)) :
    ∃ s1 validated cur,
      batch_validate (emit (.BatchSettlementStarted settlements.length) s)
        now settlements [] = (s1, .ok validated) ∧
      s.accumulated_fees = some cur ∧
      s2.accumulated_fees = some (cur + sumFees validated) := by
  unfold batch_settle at h
  split at h
  · simp at h
  · split at h
    · simp at h
    · split at h
      · simp at h
      · dsimp only at h
        split at h
        · simp at h
        · rename_i s1 validated hbv
          split at h
          · simp at h
          · rename_i usdc htok
            split at h
            · simp at h
            · rename_i s3 ids total hbe
              split at h
              · simp at h
              · rename_i cur hfees
                split at h
                · simp at h
                · rename_i nf hadd
                  have hs2 : _ = s2 := congrArg Prod.fst h
                  have hnf : nf = cur + total := checked_add_some _ _ _ hadd
                  have htot : total = 0 + sumFees validated :=
                    batch_execute_ok_total usdc validated s1 s3 0 [] ids total hbe
                  have hcur3 : s3.accumulated_fees = some cur :=
                    get_accumulated_fees_ok _ _ hfees
                  have hcur1 : s1.accumulated_fees = some cur := by
                    have hp := batch_execute_fees_comp usdc validated s1 0 []
                    rw [hbe] at hp
                    rw [← hp]
                    exact hcur3
                  have hcurS : s.accumulated_fees = some cur := by
                    have hc := batch_validate_core now settlements []
                      (emit (.BatchSettlementStarted settlements.length) s)
                    rw [hbv] at hc
                    have := hc.2.1
                    simp only [emit] at this
                    rw [this] at hcur1
                    exact hcur1
                  refine ⟨s1, validated, cur, hbv, hcurS, ?_⟩
                  rw [← hs2]
                  simp only [emit]
                  rw [hnf, htot]
                  simp

theorem applyOp_fees (s s2 : State) (op : ConfirmOp) (u : Unit) (f0 : Int)
    (h : applyOp s op = (s2, .ok u))
    (hf : s.accumulated_fees = some f0) :
    s2.accumulated_fees = some (f0 + opFees s op) := by
  cases op with
  | single auths now remittance_id =>
    unfold applyOp at h
    dsimp only at h
    obtain ⟨r, cur, -, hget, -, -, -, hcur, -, -, hfees2⟩ :=
      confirm_payout_ok_inv _ _ _ _ _ h
    have hfc : f0 = cur := by
      rw [hf] at hcur
      exact Option.some.inj hcur
    unfold opFees
    dsimp only
    simp only [hget]
    rw [hfees2, hfc]
  | batch now settlements =>
    unfold applyOp at h
    dsimp only at h
    split at h
    · rename_i s3 res hbs
      obtain ⟨h1, -⟩ := Prod.mk.injEq .. |>.mp h
      obtain ⟨s1, validated, cur, hbv, hcurS, hfees2⟩ :=
        batch_settle_ok_inv _ _ _ _ _ hbs
      have hfc : f0 = cur := by
        rw [hf] at hcurS
        exact Option.some.inj hcurS
      unfold opFees
      dsimp only
      simp only [hbv]
      rw [← h1, hfees2, hfc]
    · simp at h

theorem runOps_fees :
    ∀ (ops : List ConfirmOp) (s sf : State) (total f0 : Int),
      runOps s ops = some (sf, total) → s.accumulated_fees = some f0 →
      sf.accumulated_fees = some (f0 + total) := by
  intro ops
  induction ops with
  | nil =>
    intro s sf total f0 h hf
    unfold runOps at h
    obtain ⟨h1, h2⟩ := Prod.mk.injEq .. |>.mp (Option.some.inj h)
    rw [← h1, ← h2, hf]
    simp
  | cons op ops ih =>
    intro s sf total f0 h hf
    unfold runOps at h
    split at h
    · rename_i s2 u happ
      split at h
      · rename_i p sf0 total0 hrun
        obtain ⟨h1, h2⟩ := Prod.mk.injEq .. |>.mp (Option.some.inj h)
        have hs2 := applyOp_fees s s2 op u f0 happ hf
        have hx := ih s2 sf0 total0 (f0 + opFees s op) hrun hs2
        rw [← h1, ← h2, hx]
        congr 1
        ring
      · cases h
    · cases h

/-- C5: fee conservation.  Along any sequence of successful confirmations
(single or batch, no withdrawals) the accumulated fee balance grows by
exactly the sum of the confirmed remittances' fees — starting from 0 it
equals that sum; and a successful batch adds the fee total of its
validated remittances to `accumulated_fees` in one single fold at the end
of phase 2. -/
theorem fee_conservation :
    (∀ (ops : List ConfirmOp) (s sf : State) (total : Int),
      runOps s ops = some (sf, total) → s.accumulated_fees = some 0 →
      sf.accumulated_fees = some total) ∧
    (∀ (s s2 : State) (now : Nat) (settlements : List BatchSettlementEntry)
        (res : BatchSettlementResult) (f0 : Int),
      batch_settle s now settlements = (s2, .ok res) →
      s.accumulated_fees = some f0 →
      ∃ s1 validated,
        batch_validate (emit (.BatchSettlementStarted settlements.length) s)
          now settlements [] = (s1, .ok validated) ∧
        s2.accumulated_fees = some (f0 + sumFees validated)) := by
  refine ⟨?_, ?_⟩
  · intro ops s sf total h hf
    have hx := runOps_fees ops s sf total 0 h hf
    simpa using hx
  · intro s s2 now settlements res f0 h hf
    obtain ⟨s1, validated, cur, hbv, hcurS, hfees2⟩ := batch_settle_ok_inv _ _ _ _ _ h
    have hfc : f0 = cur := by
      rw [hf] at hcurS
      exact Option.some.inj hcurS
    exact ⟨s1, validated, hbv, hfc ▸ hfees2⟩



/-- Witness for C5: confirming remittance 1 (fee 25) from a zero balance
leaves exactly 25 accumulated; a one-entry batch adds the validated fee
sum on top of the pre-state balance. -/
theorem fee_conservation_witness :
    (confirm_payout zeroFeeState [agentB] 0 1).1.accumulated_fees = some 25 ∧
    (∃ s1 validated,
      batch_validate (emit (.BatchSettlementStarted 1) zeroFeeState) 0 [⟨1⟩] [] =
        (s1, .ok validated) ∧
      (batch_settle zeroFeeState 0 [⟨1⟩]).1.accumulated_fees =
        some (0 + sumFees validated)) := by
  refine ⟨?_, ?_⟩
  · exact fee_conservation.1 [ConfirmOp.single [agentB] 0 1] zeroFeeState
      (confirm_payout zeroFeeState [agentB] 0 1).1 25 (by decide) (by decide)
  · exact fee_conservation.2 zeroFeeState (batch_settle zeroFeeState 0 [⟨1⟩]).1 0
      [⟨1⟩] ⟨[1]⟩ 0 (by decide) (by decide)

end SwiftRemit
